import Mathlib

/-!
Shallow embedding of the session-bridging engine of the rns-irc-bridge
repository (source files rns-irc-client.py and rns-irc-server.py).

Pure control flow is translated into Lean functions; the effects the claims
talk about (socket close, buffer close, link teardown, registry mutation,
lock acquisition) are recorded either as counters in an explicit state record
or as events in a trace list.  Machine concurrency (the unsynchronized
`stop()` of both files) is modelled by an instruction-level interleaving
machine over the bytecode-granularity steps of `stop`.
-/

namespace RnsIrcBridge

/-- A byte chunk travelling through either pump (bytes as naturals). -/
abbrev Chunk := List Nat

/-! ## Destination-hash parsing (rns-irc-client.py, IRCClientBridge.start, lines 60-68)

`dest_hex = self.config["server_destination_hash"].replace(":", "").replace(" ", "")`
followed by the length check against `(RNS.Reticulum.TRUNCATED_HASHLENGTH // 8) * 2`
and `bytes.fromhex`. -/

/-- `str.replace(":", "").replace(" ", "")` : removes every colon, then every
space, from the configured hash string. -/
def stripHex (s : List Char) : List Char :=
  (s.filter (fun c => c ≠ ':')).filter (fun c => c ≠ ' ')

/-- `RNS.Reticulum.TRUNCATED_HASHLENGTH` (bits) in the Reticulum stack. -/
def TRUNCATED_HASHLENGTH : Nat := 128

/-- `dest_len = (RNS.Reticulum.TRUNCATED_HASHLENGTH // 8) * 2` : expected hex
length, twice the truncated hash length in bytes. -/
def destLen : Nat := (TRUNCATED_HASHLENGTH / 8) * 2

/-- Value of one hex digit, `none` on a non-hex character (where Python's
`bytes.fromhex` raises ValueError). -/
def hexDigitVal (c : Char) : Option Nat :=
  if ('0' ≤ c ∧ c ≤ '9') then some (c.toNat - '0'.toNat)
  else if ('a' ≤ c ∧ c ≤ 'f') then some (10 + c.toNat - 'a'.toNat)
  else if ('A' ≤ c ∧ c ≤ 'F') then some (10 + c.toNat - 'A'.toNat)
  else none

/-- `bytes.fromhex` : consumes hex digits two at a time; fails on an odd
length or a non-hex character. -/
def fromHex : List Char → Option (List Nat)
  | [] => some []
  | [_] => none
  | a :: b :: rest =>
    match hexDigitVal a, hexDigitVal b, fromHex rest with
    | some hi, some lo, some bs => some ((16 * hi + lo) :: bs)
    | _, _, _ => none

/-- The hash-parsing prefix of `IRCClientBridge.start`: strip separators,
check the length, parse; `none` is the rejecting outcome (process exit or
parse exception). -/
def parseDestHash (cfg : List Char) : Option (List Nat) :=
  let hex := stripHex cfg
  if hex.length = destLen then fromHex hex else none

/-- Observable milestones of `IRCClientBridge.start` up to the accept loop. -/
inductive StartEv
  | validateHash
  | fatalExit (code : Nat)
  | initTransport
  | pathRequest
  | createListener
  | bindListener
  | acceptLoop
deriving DecidableEq, Repr

/-- Event trace of `IRCClientBridge.start` (lines 56-116): validate the hash
(exit 1 on a wrong length), initialize Reticulum, request a path when none is
known (exit 1 when none is ever found), then create and bind the TCP
listener and enter the accept loop.  `hadPath` is the initial
`RNS.Transport.has_path` answer, `pathFound` whether the polling wait ever
sees a path. -/
def clientStartTrace (cfg : List Char) (hadPath pathFound : Bool) : List StartEv :=
  let hex := stripHex cfg
  if hex.length = destLen then
    StartEv.validateHash :: StartEv.initTransport ::
      (if hadPath then
        [StartEv.createListener, StartEv.bindListener, StartEv.acceptLoop]
      else if pathFound then
        [StartEv.pathRequest, StartEv.createListener, StartEv.bindListener,
          StartEv.acceptLoop]
      else [StartEv.pathRequest, StartEv.fatalExit 1])
  else [StartEv.validateHash, StartEv.fatalExit 1]

/-! ## Path-discovery wait (rns-irc-client.py, lines 80-89)

`while not has_path: time.sleep(0.5); if time.time() - start > timeout: exit(1)`
modelled in milliseconds under the assumption that no path is ever found, so
each iteration advances the clock by the 500 ms sleep.  The returned value is
the elapsed time at which the loop performs the fatal exit. -/

/-- Elapsed time (ms) at which the path wait exits fatally, starting from
elapsed time `t`, when `RNS.Transport.has_path` never becomes true. -/
def pathWaitElapsed (timeoutMs t : Nat) : Nat :=
  if timeoutMs < t + 500 then t + 500
  else pathWaitElapsed timeoutMs (t + 500)
termination_by timeoutMs + 500 - t
decreasing_by
  simp_wf
  omega

/-! ## Session teardown (`stop`, rns-irc-client.py lines 276-298 and
rns-irc-server.py lines 222-244; the two bodies are identical up to the
socket attribute name)

```
def stop(self):
    if not self.running: return
    self.running = False
    try: self.tcp_sock.close() ...
    try:
        if self.buffer: self.buffer.close() ...
    try:
        if self.link and self.link.status == RNS.Link.ACTIVE: self.link.teardown() ...
```
Side effects are recorded as counters; best-effort exception swallowing has
no state effect and is dropped. -/

/-- State of one bridged connection as `stop` sees it: the `running` flag,
whether `self.buffer` was ever created, whether the link is still ACTIVE,
plus counters of the teardown side effects performed so far. -/
structure StopState where
  running : Bool
  hasBuffer : Bool
  linkActive : Bool
  sockCloses : Nat
  bufCloses : Nat
  teardowns : Nat
deriving DecidableEq, Repr

/-- Sequential semantics of `stop()`: return immediately when already
stopped, otherwise clear the flag, close the socket, close the buffer when
present, and request link teardown when the link is still ACTIVE. -/
def stop (s : StopState) : StopState :=
  if s.running then
    { running := false
      hasBuffer := s.hasBuffer
      linkActive := false
      sockCloses := s.sockCloses + 1
      bufCloses := s.bufCloses + (if s.hasBuffer then 1 else 0)
      teardowns := s.teardowns + (if s.linkActive then 1 else 0) }
  else s

/-! ### Instruction-level interleaving of two concurrent `stop()` calls

`stop` reads `self.running` and writes it in two separate interpreter steps
with no lock around them, so two callers can interleave between the check
and the write.  Each thread runs the instruction list `stopProgram`; a
schedule picks which thread performs its next instruction. -/

/-- One interpreter-level step of `stop()`. -/
inductive SInstr
  | checkFlag
  | clearFlag
  | closeSock
  | closeBuf
  | teardown
deriving DecidableEq, Repr

/-- The straight-line body of `stop()` for a session whose buffer exists. -/
def stopProgram : List SInstr :=
  [SInstr.checkFlag, SInstr.clearFlag, SInstr.closeSock, SInstr.closeBuf,
    SInstr.teardown]

/-- Shared state plus the remaining program of each of two threads that were
both asked to run `stop()` on the same connection. -/
structure RaceState where
  running : Bool
  linkActive : Bool
  sockCloses : Nat
  bufCloses : Nat
  teardowns : Nat
  thread1 : List SInstr
  thread2 : List SInstr
deriving DecidableEq, Repr

/-- Execute the next instruction of thread 1 (`useFirst = true`) or thread 2.
`checkFlag` with `running = false` makes the thread return (drops the rest of
its program); `teardown` models the guarded
`if self.link.status == ACTIVE: teardown()`. -/
def execStep (st : RaceState) (useFirst : Bool) : RaceState :=
  let prog := if useFirst then st.thread1 else st.thread2
  match prog with
  | [] => st
  | i :: rest =>
    let put := fun (core : RaceState) (newProg : List SInstr) =>
      if useFirst then { core with thread1 := newProg }
      else { core with thread2 := newProg }
    match i with
    | SInstr.checkFlag => if st.running then put st rest else put st []
    | SInstr.clearFlag => put { st with running := false } rest
    | SInstr.closeSock => put { st with sockCloses := st.sockCloses + 1 } rest
    | SInstr.closeBuf => put { st with bufCloses := st.bufCloses + 1 } rest
    | SInstr.teardown =>
      if st.linkActive then
        put { st with teardowns := st.teardowns + 1, linkActive := false } rest
      else put st rest

/-- Run a schedule (list of thread choices) from a state. -/
def runSchedule (sched : List Bool) (st : RaceState) : RaceState :=
  sched.foldl execStep st

/-- Both threads poised to run `stop()` on a running, established session. -/
def raceInit : RaceState :=
  { running := true, linkActive := true, sockCloses := 0, bufCloses := 0,
    teardowns := 0, thread1 := stopProgram, thread2 := stopProgram }

/-- The racy schedule: both threads pass `checkFlag` before either clears the
flag, then each runs its remaining teardown body. -/
def raceSchedule : List Bool :=
  [true, false, true, true, true, true, false, false, false, false]

/-- The sequential schedule: thread 1 runs `stop()` to completion, then
thread 2 runs. -/
def seqSchedule : List Bool :=
  [true, true, true, true, true, false, false, false, false, false]

/-! ## Registry lock discipline as event traces

Registry-touching code paths, with lock acquisition/release, blocking
teardown I/O, and list mutation recorded as events:
  * ingress registration, rns-irc-client.py lines 154-155;
  * ingress timeout removal, lines 170-172;
  * ingress shutdown, lines 184-187;
  * egress link-closed handler, rns-irc-server.py lines 142-149. -/

/-- Descriptor of a bridged connection for trace purposes: the three fields
of its state that decide which teardown side effects `stop()` performs. -/
structure ConnDesc where
  running : Bool
  hasBuffer : Bool
  linkActive : Bool
deriving DecidableEq, Repr

/-- A blocking teardown I/O operation performed by `stop()`. -/
inductive BlockOp
  | closeSock
  | closeBuf
  | teardownLink
deriving DecidableEq, Repr

/-- A mutation of the shared `clients` list. -/
inductive RegOp
  | append
  | remove
  | clear
deriving DecidableEq, Repr

/-- Events of a registry-touching code path. -/
inductive RegEv
  | lockAcquire
  | lockRelease
  | ioEv (op : BlockOp)
  | regEv (op : RegOp)
deriving DecidableEq, Repr

/-- The blocking I/O operations `stop()` performs on a connection in state
`c`: nothing when already stopped, otherwise socket close, buffer close when
the buffer exists, link teardown when the link is ACTIVE. -/
def stopIOs (c : ConnDesc) : List BlockOp :=
  if c.running then
    BlockOp.closeSock ::
      ((if c.hasBuffer then [BlockOp.closeBuf] else []) ++
        (if c.linkActive then [BlockOp.teardownLink] else []))
  else []

/-- `stop()` as a registry-path event sequence: only blocking I/O, never a
lock or registry-list event. -/
def stopEvents (c : ConnDesc) : List RegEv :=
  (stopIOs c).map RegEv.ioEv

/-- Ingress registration (`with self.clients_lock: self.clients.append(conn)`). -/
def clientRegisterTrace : List RegEv :=
  [RegEv.lockAcquire, RegEv.regEv RegOp.append, RegEv.lockRelease]

/-- Ingress establishment-timeout removal
(`with self.clients_lock: if conn in self.clients: self.clients.remove(conn)`). -/
def clientTimeoutRemoveTrace : List RegEv :=
  [RegEv.lockAcquire, RegEv.regEv RegOp.remove, RegEv.lockRelease]

/-- Ingress (and, identically, egress) shutdown:
`with self.clients_lock: for conn in list(self.clients): conn.stop(); self.clients.clear()`. -/
def clientShutdownTrace (conns : List ConnDesc) : List RegEv :=
  RegEv.lockAcquire ::
    ((conns.map stopEvents).flatten ++ [RegEv.regEv RegOp.clear, RegEv.lockRelease])

/-- Body of the egress `_link_closed` scan: each entry is paired with whether
`conn.link == link`; on the first match the handler stops and removes it and
breaks. -/
def serverScan : List (Bool × ConnDesc) → List RegEv
  | [] => []
  | (m, c) :: rest =>
    if m then stopEvents c ++ [RegEv.regEv RegOp.remove] else serverScan rest

/-- Egress `_link_closed`: the whole scan runs under `self.clients_lock`. -/
def serverLinkClosedTrace (conns : List (Bool × ConnDesc)) : List RegEv :=
  RegEv.lockAcquire :: (serverScan conns ++ [RegEv.lockRelease])

/-- The blocking I/O operations of a trace that execute while the registry
lock is held (`held` is the lock state entering the trace). -/
def iosUnderLock (held : Bool) : List RegEv → List BlockOp
  | [] => []
  | RegEv.lockAcquire :: rest => iosUnderLock true rest
  | RegEv.lockRelease :: rest => iosUnderLock false rest
  | RegEv.ioEv op :: rest => (if held then [op] else []) ++ iosUnderLock held rest
  | RegEv.regEv _ :: rest => iosUnderLock held rest

/-- Blocking I/O performed under the registry lock in a full trace. -/
def blockingUnderLock (tr : List RegEv) : List BlockOp :=
  iosUnderLock false tr

/-! ## The local-to-remote pump (`_tcp_to_rns_loop`, rns-irc-client.py lines
259-274 and rns-irc-server.py lines 205-220; identical bodies)

```
while self.running:
    data = sock.recv(4096)
    if not data: break
    with self._buffer_lock:
        self.buffer.write(data)
        self.buffer.flush()
... finally: self.stop()
```
The socket is modelled by the sequence of outcomes the kernel produces at
each `recv` call: either some available bytes (of which `recv(4096)` returns
at most 4096) or a raised I/O error.  An exhausted outcome list models the
loop observing `self.running == False` and leaving the loop normally. -/

/-- The `bufsize` argument of `recv` in both pump loops. -/
def RECV_CAP : Nat := 4096

/-- Kernel outcome of one `recv` call: delivered bytes or a raised error. -/
inductive SockStep
  | dat (bytes : Chunk)
  | fail
deriving DecidableEq, Repr

/-- Observable events of one pump-loop execution. -/
inductive PEv
  | readEv (c : Chunk)
  | writeEv (c : Chunk)
  | flushEv
  | errEv
  | stopEv
deriving DecidableEq, Repr

/-- Event trace of `_tcp_to_rns_loop` over the kernel's recv outcomes:
each delivered chunk is truncated to `RECV_CAP` by `recv`, an empty result
breaks the loop, an error aborts it, and the `finally` block always runs
`stop()`. -/
def tcpLoopGo : List SockStep → List PEv
  | [] => [PEv.stopEv]
  | SockStep.fail :: _ => [PEv.errEv, PEv.stopEv]
  | SockStep.dat b :: rest =>
    let c := b.take RECV_CAP
    if c = [] then [PEv.readEv c, PEv.stopEv]
    else PEv.readEv c :: PEv.writeEv c :: PEv.flushEv :: tcpLoopGo rest

/-- The chunks read from the socket, in trace order. -/
def readsOf : List PEv → List Chunk
  | [] => []
  | PEv.readEv c :: rest => c :: readsOf rest
  | PEv.writeEv _ :: rest => readsOf rest
  | PEv.flushEv :: rest => readsOf rest
  | PEv.errEv :: rest => readsOf rest
  | PEv.stopEv :: rest => readsOf rest

/-- The chunks written to the channel buffer, in trace order. -/
def writesOf : List PEv → List Chunk
  | [] => []
  | PEv.readEv _ :: rest => writesOf rest
  | PEv.writeEv c :: rest => c :: writesOf rest
  | PEv.flushEv :: rest => writesOf rest
  | PEv.errEv :: rest => writesOf rest
  | PEv.stopEv :: rest => writesOf rest

/-- Every read in the trace is within the `recv` cap. -/
def capOk : PEv → Bool
  | PEv.readEv c => decide (c.length ≤ RECV_CAP)
  | _ => true

/-- Well-formed pump trace: a run of nonempty reads, each immediately
followed by a write of the same chunk and a flush before the next read,
terminated by plain loop exit, an I/O error, or an empty read — and in every
case by `stop()`. -/
def wfTrace : List PEv → Bool
  | [PEv.stopEv] => true
  | [PEv.errEv, PEv.stopEv] => true
  | [PEv.readEv c, PEv.stopEv] => decide (c = [])
  | PEv.readEv c :: PEv.writeEv c2 :: PEv.flushEv :: rest =>
    decide (c ≠ []) && decide (c = c2) && wfTrace rest
  | _ => false

/-- The trace ends with a `stop()` event. -/
def endsWithStop : List PEv → Bool
  | [] => false
  | [PEv.stopEv] => true
  | _ :: rest => endsWithStop rest

/-! ## The remote-to-local pump (`_rns_data_ready`, rns-irc-client.py lines
246-257 and rns-irc-server.py lines 192-203; identical bodies)

```
if not self.running: return
data = self.buffer.read(ready_bytes)
if data: sock.sendall(data)
```
One callback invocation is a pure state transition; a session's sequence of
callback deliveries is a fold. -/

/-- State visible to the readiness callback: the `running` flag and the
chunks sent so far to the local socket via `sendall`. -/
structure ReadyState where
  running : Bool
  sentChunks : List Chunk
deriving DecidableEq, Repr

/-- One `_rns_data_ready` invocation with `data` the bytes `buffer.read`
returns: drop it when stopped or empty, otherwise `sendall` it whole. -/
def rnsDataReady (st : ReadyState) (data : Chunk) : ReadyState :=
  if st.running then
    if data = [] then st
    else { st with sentChunks := st.sentChunks ++ [data] }
  else st

/-- A sequence of readiness-callback deliveries. -/
def runReadyCallbacks (st : ReadyState) (ds : List Chunk) : ReadyState :=
  ds.foldl rnsDataReady st

/-! ## Ingress per-client handling (`IRCClientBridge._handle_client`, lines
131-172)

Recall the server identity (close the socket and return when unknown),
build the destination, create the link and the bridged-connection object,
append it to `self.clients` under the lock, set the link callbacks, then
poll up to 30 s for establishment; when not ready, `conn.stop()` and remove
it from `self.clients`.  Registry contents are lists of connection ids. -/

/-- Outcome of `_handle_client`: the registry while the handler is waiting
for link establishment, the registry when the handler returns, whether the
accepted socket was closed, whether a bridged-connection object was
constructed, and whether link callbacks were registered for it. -/
structure HandleOutcome where
  midRegistry : List Nat
  finalRegistry : List Nat
  sockClosed : Bool
  sessionAllocated : Bool
  callbacksSet : Bool
deriving DecidableEq, Repr

/-- `_handle_client` for one accepted client `cid` against initial registry
`reg`; `identityKnown` is whether `RNS.Identity.recall` succeeds and
`linkReady` whether the link reports established within the 30 s poll. -/
def handleClient (identityKnown linkReady : Bool) (reg : List Nat) (cid : Nat) :
    HandleOutcome :=
  if identityKnown then
    let reg1 := reg ++ [cid]
    if linkReady then
      { midRegistry := reg1, finalRegistry := reg1, sockClosed := false,
        sessionAllocated := true, callbacksSet := true }
    else
      { midRegistry := reg1, finalRegistry := reg1.erase cid, sockClosed := true,
        sessionAllocated := true, callbacksSet := true }
  else
    { midRegistry := reg, finalRegistry := reg, sockClosed := true,
      sessionAllocated := false, callbacksSet := false }

/-! ## Egress inbound-link handling (`IRCServerBridge._link_established`,
rns-irc-server.py lines 115-140) -/

/-- Outcome of `_link_established`: the registry, the number of immediate
`link.teardown()` calls, and whether a bridged connection was constructed. -/
structure EgressOutcome where
  registry : List Nat
  teardowns : Nat
  sessionCreated : Bool
deriving DecidableEq, Repr

/-- `_link_established` for inbound link `cid` against registry `reg`;
`connectOk` is whether the TCP connect to the backend succeeds. -/
def serverLinkEstablished (connectOk : Bool) (reg : List Nat) (cid : Nat) :
    EgressOutcome :=
  if connectOk then
    { registry := reg ++ [cid], teardowns := 0, sessionCreated := true }
  else
    { registry := reg, teardowns := 1, sessionCreated := false }

/-- A running, established connection with fresh side-effect counters, as it
is when the first `stop()` arrives. -/
def runningConn : StopState :=
  { running := true, hasBuffer := true, linkActive := true, sockCloses := 0,
    bufCloses := 0, teardowns := 0 }

/-- Trace descriptor of the same running, established connection. -/
def runningDesc : ConnDesc :=
  { running := true, hasBuffer := true, linkActive := true }

/-! ## Helper lemmas -/

/-- Upper bound on the path-wait exit time: starting not later than the
timeout, the loop exits within one extra polling interval. -/
theorem pathWaitElapsed_le (timeoutMs t : Nat) (h : t ≤ timeoutMs) :
    pathWaitElapsed timeoutMs t ≤ timeoutMs + 500 := by
  rw [pathWaitElapsed]
  by_cases hc : timeoutMs < t + 500
  · simp only [hc, if_true]
    omega
  · simp only [hc, if_false]
    exact pathWaitElapsed_le timeoutMs (t + 500) (by omega)
termination_by timeoutMs + 500 - t
decreasing_by
  simp_wf
  omega

/-- Lower bound: the loop only exits after the elapsed time has exceeded the
timeout (the exit check is a strict comparison). -/
theorem pathWaitElapsed_gt (timeoutMs t : Nat) :
    timeoutMs < pathWaitElapsed timeoutMs t := by
  rw [pathWaitElapsed]
  by_cases hc : timeoutMs < t + 500
  · simp only [hc, if_true]
  · simp only [hc, if_false]
    exact pathWaitElapsed_gt timeoutMs (t + 500)
termination_by timeoutMs + 500 - t
decreasing_by
  simp_wf
  omega

/-! ## Claims -/

/-- Claim C5: if no transport path is ever discovered, the ingress
path-discovery wait loop terminates with its fatal exit within
`timeout + polling-interval` (one extra 0.5 s sleep) of its start, and not
before the timeout has elapsed; it never loops indefinitely (the model is a
total function). -/
theorem claim_C5 (timeoutMs : Nat) :
    timeoutMs < pathWaitElapsed timeoutMs 0 ∧
    pathWaitElapsed timeoutMs 0 ≤ timeoutMs + 500 :=
  ⟨pathWaitElapsed_gt timeoutMs 0, pathWaitElapsed_le timeoutMs 0 (Nat.zero_le _)⟩

/-- Claim C4: when the configured destination hash does not have exactly
`2 × (truncated hash length in bytes)` hex characters, `start` exits with a
nonzero status immediately after the validation step, before the TCP
listener socket is created or bound. -/
theorem claim_C4 (cfg : List Char) (hadPath pathFound : Bool)
    (h : (stripHex cfg).length ≠ destLen) :
    clientStartTrace cfg hadPath pathFound =
      [StartEv.validateHash, StartEv.fatalExit 1] ∧
    StartEv.createListener ∉ clientStartTrace cfg hadPath pathFound ∧
    StartEv.bindListener ∉ clientStartTrace cfg hadPath pathFound := by
  have htrace : clientStartTrace cfg hadPath pathFound =
      [StartEv.validateHash, StartEv.fatalExit 1] := by
    unfold clientStartTrace
    simp [h]
  refine ⟨htrace, ?_, ?_⟩ <;> simp [htrace]

/-- Witness for claim C4 at a two-character hash. -/
theorem claim_C4_witness :
    (stripHex [Char.ofNat 97, Char.ofNat 98]).length ≠ destLen ∧
    (clientStartTrace [Char.ofNat 97, Char.ofNat 98] true true =
        [StartEv.validateHash, StartEv.fatalExit 1] ∧
      StartEv.createListener ∉ clientStartTrace [Char.ofNat 97, Char.ofNat 98] true true ∧
      StartEv.bindListener ∉ clientStartTrace [Char.ofNat 97, Char.ofNat 98] true true) :=
  ⟨by decide, claim_C4 [Char.ofNat 97, Char.ofNat 98] true true (by decide)⟩

/-- Claim C9: the configured hash has every colon and space stripped before
the length check, so any separator formatting of a hash string is treated
exactly like the bare string: same stripped form, hence same length check
and same parsed destination bytes. `hbare` is the separator-free hash and
`s` any string whose separator-stripped form is `hbare`. -/
theorem claim_C9 (s hbare : List Char)
    (hsep : ∀ c ∈ hbare, c ≠ ':' ∧ c ≠ ' ')
    (hstrip : stripHex s = hbare) :
    stripHex s = stripHex hbare ∧ parseDestHash s = parseDestHash hbare := by
  have h1 : hbare.filter (fun c => c ≠ ':') = hbare :=
    List.filter_eq_self.mpr (by
      intro a ha
      simpa using (hsep a ha).1)
  have h2 : hbare.filter (fun c => c ≠ ' ') = hbare :=
    List.filter_eq_self.mpr (by
      intro a ha
      simpa using (hsep a ha).2)
  have hself : stripHex hbare = hbare := by
    unfold stripHex
    rw [h1, h2]
  constructor
  · rw [hstrip, hself]
  · unfold parseDestHash
    rw [hstrip, hself]

/-- Witness for claim C9: a colon-separated formatting of a two-character
hash strips to the bare hash and parses identically. -/
theorem claim_C9_witness :
    (∀ c ∈ [Char.ofNat 97, Char.ofNat 98], c ≠ ':' ∧ c ≠ ' ') ∧
    stripHex [Char.ofNat 97, ':', Char.ofNat 98] = [Char.ofNat 97, Char.ofNat 98] ∧
    (stripHex [Char.ofNat 97, ':', Char.ofNat 98] =
        stripHex [Char.ofNat 97, Char.ofNat 98] ∧
      parseDestHash [Char.ofNat 97, ':', Char.ofNat 98] =
        parseDestHash [Char.ofNat 97, Char.ofNat 98]) :=
  ⟨by decide, by decide,
    claim_C9 [Char.ofNat 97, ':', Char.ofNat 98] [Char.ofNat 97, Char.ofNat 98]
      (by decide) (by decide)⟩

/-- Claim C7: when the TCP connect to the backend fails for an inbound
established link, the link is torn down immediately, no session object is
constructed, and the session registry is unchanged. -/
theorem claim_C7 (reg : List Nat) (cid : Nat) :
    (serverLinkEstablished false reg cid).registry = reg ∧
    (serverLinkEstablished false reg cid).teardowns = 1 ∧
    (serverLinkEstablished false reg cid).sessionCreated = false :=
  ⟨rfl, rfl, rfl⟩

/-- Claim C10: when the server identity cannot be recalled for an accepted
TCP client, the handler closes the client socket and returns before
constructing a bridged connection; the registry is unchanged throughout and
no link callbacks are registered. -/
theorem claim_C10 (linkReady : Bool) (reg : List Nat) (cid : Nat) :
    handleClient false linkReady reg cid =
      { midRegistry := reg, finalRegistry := reg, sockClosed := true,
        sessionAllocated := false, callbacksSet := false } := rfl

/-- Counterexample to claim C1 as stated: (1) `stop()` reads and clears the
`running` flag without a lock, so the interleaving in which both concurrent
callers pass the check before either clears the flag performs the socket
close (and every other teardown side effect) twice; (2) `stop()` itself
performs no session-registry deregistration at all — its event footprint
contains no registry-removal event — so a single call does not result in
exactly one deregistration. -/
theorem claim_C1_counterexample :
    (runSchedule raceSchedule raceInit).sockCloses = 2 ∧
    (stopEvents runningDesc).count (RegEv.regEv RegOp.remove) = 0 := by
  constructor
  · rfl
  · rfl

/-- Claim C1 (amended): sequential calls to `stop()` on a running bridged
connection perform the teardown side effects exactly once — the first call
clears the flag, closes the socket, closes the buffer when present, and
requests link teardown when the link is ACTIVE, and every later sequential
call observes the already-stopped state and returns without changing
anything; `stop()` performs no registry deregistration of its own; and
concurrent callers are not coalesced: under the unsynchronized flag check a
sequential schedule of two callers closes the socket once but the racy
schedule closes it twice. -/
theorem claim_C1_amended (s : StopState) (h : s.running = true) :
    (stop s).running = false ∧
    (stop s).sockCloses = s.sockCloses + 1 ∧
    (stop s).bufCloses = s.bufCloses + (if s.hasBuffer then 1 else 0) ∧
    (stop s).teardowns = s.teardowns + (if s.linkActive then 1 else 0) ∧
    stop (stop s) = stop s ∧
    (∀ c : ConnDesc, (stopEvents c).count (RegEv.regEv RegOp.remove) = 0) ∧
    (runSchedule seqSchedule raceInit).sockCloses = 1 ∧
    (runSchedule raceSchedule raceInit).sockCloses = 2 := by
  refine ⟨by simp [stop, h], by simp [stop, h], by simp [stop, h], by simp [stop, h],
    by simp [stop, h], ?_, rfl, rfl⟩
  intro c
  obtain ⟨r, b, l⟩ := c
  cases r <;> cases b <;> cases l <;> rfl

/-- Witness for claim C1 (amended) at a running, established connection. -/
theorem claim_C1_amended_witness :
    runningConn.running = true ∧
    ((stop runningConn).running = false ∧
      (stop runningConn).sockCloses = runningConn.sockCloses + 1 ∧
      (stop runningConn).bufCloses =
        runningConn.bufCloses + (if runningConn.hasBuffer then 1 else 0) ∧
      (stop runningConn).teardowns =
        runningConn.teardowns + (if runningConn.linkActive then 1 else 0) ∧
      stop (stop runningConn) = stop runningConn ∧
      (∀ c : ConnDesc, (stopEvents c).count (RegEv.regEv RegOp.remove) = 0) ∧
      (runSchedule seqSchedule raceInit).sockCloses = 1 ∧
      (runSchedule raceSchedule raceInit).sockCloses = 2) :=
  ⟨rfl, claim_C1_amended runningConn rfl⟩

/-- Counterexample to claim C3 as stated: on the failure path (identity
known, link never ready) a bridged-connection object is allocated, and it is
present in the session registry while the handler waits for establishment,
so the registry does not stay as it was before the accept during the
handling. -/
theorem claim_C3_counterexample :
    (handleClient true false [] 7).sessionAllocated = true ∧
    (handleClient true false [] 7).midRegistry = [7] := by
  constructor
  · rfl
  · rfl

/-- Claim C3 (amended): when link establishment fails or times out for an
accepted TCP client, the handler closes the accepted socket and discards the
connection, and the registry when the handler returns equals the registry
before the accept — but a bridged-connection (session) object is allocated
and registered before the wait, so it is transiently present. -/
theorem claim_C3_amended (reg : List Nat) (cid : Nat) (h : cid ∉ reg) :
    (handleClient true false reg cid).finalRegistry = reg ∧
    (handleClient true false reg cid).sockClosed = true ∧
    (handleClient true false reg cid).sessionAllocated = true := by
  refine ⟨?_, rfl, rfl⟩
  show (reg ++ [cid]).erase cid = reg
  rw [List.erase_append_right _ h]
  simp

/-- Witness for claim C3 (amended) with a fresh connection id. -/
theorem claim_C3_amended_witness :
    (7 : Nat) ∉ [1, 2] ∧
    ((handleClient true false [1, 2] 7).finalRegistry = [1, 2] ∧
      (handleClient true false [1, 2] 7).sockClosed = true ∧
      (handleClient true false [1, 2] 7).sessionAllocated = true) :=
  ⟨by decide, claim_C3_amended [1, 2] 7 (by decide)⟩

/-- In every local-to-remote pump trace, the concatenation of the chunks
written to the channel buffer equals the concatenation of the chunks read
from the socket. -/
theorem tcp_writes_eq_reads (steps : List SockStep) :
    (writesOf (tcpLoopGo steps)).flatten = (readsOf (tcpLoopGo steps)).flatten := by
  induction steps with
  | nil => rfl
  | cons s rest ih =>
    cases s with
    | fail => rfl
    | dat b =>
      by_cases hb : b.take RECV_CAP = []
      · simp [tcpLoopGo, hb, readsOf, writesOf]
      · simp [tcpLoopGo, hb, readsOf, writesOf, ih]

/-- Chunks delivered by the readiness callback while the session is running
are sent to the local socket in order; empty reads send nothing. -/
theorem runReadyCallbacks_sent (ds : List Chunk) :
    ∀ acc, (∀ d ∈ ds, d ≠ []) →
      (runReadyCallbacks { running := true, sentChunks := acc } ds).sentChunks =
        acc ++ ds := by
  induction ds with
  | nil =>
    intro acc _
    simp [runReadyCallbacks]
  | cons d rest ih =>
    intro acc h
    have hd : d ≠ [] := h d (List.mem_cons_self d rest)
    have hrest : ∀ x ∈ rest, x ≠ [] := fun x hx => h x (List.mem_cons_of_mem d hx)
    have step : rnsDataReady { running := true, sentChunks := acc } d =
        { running := true, sentChunks := acc ++ [d] } := by
      simp [rnsDataReady, hd]
    calc (runReadyCallbacks { running := true, sentChunks := acc } (d :: rest)).sentChunks
        = (runReadyCallbacks { running := true, sentChunks := acc ++ [d] } rest).sentChunks := by
          simp [runReadyCallbacks, List.foldl_cons, step]
      _ = (acc ++ [d]) ++ rest := ih (acc ++ [d]) hrest
      _ = acc ++ d :: rest := by simp

/-- Claim C2: for every finite sequence of chunks read from the local TCP
socket of an active session, the bytes written to the channel buffer are
exactly the bytes read, in order; symmetrically, every nonempty chunk a
readiness callback delivers while the session is running is sent in full to
the local socket, in the order delivered. -/
theorem claim_C2 (steps : List SockStep) (ds : List Chunk)
    (h : ∀ d ∈ ds, d ≠ []) :
    (writesOf (tcpLoopGo steps)).flatten = (readsOf (tcpLoopGo steps)).flatten ∧
    (runReadyCallbacks { running := true, sentChunks := [] } ds).sentChunks = ds :=
  ⟨tcp_writes_eq_reads steps,
    by simpa using runReadyCallbacks_sent ds [] h⟩

/-- Witness for claim C2 on a two-chunk socket stream and a two-chunk
callback delivery sequence. -/
theorem claim_C2_witness :
    (∀ d ∈ [[1, 2], [3]], d ≠ ([] : Chunk)) ∧
    ((writesOf (tcpLoopGo [SockStep.dat [9, 8], SockStep.dat [7]])).flatten =
        (readsOf (tcpLoopGo [SockStep.dat [9, 8], SockStep.dat [7]])).flatten ∧
      (runReadyCallbacks { running := true, sentChunks := [] }
          [[1, 2], [3]]).sentChunks = [[1, 2], [3]]) :=
  ⟨by decide, claim_C2 [SockStep.dat [9, 8], SockStep.dat [7]] [[1, 2], [3]] (by decide)⟩

/-- Skipping the head of a list of length at least two does not change
whether it ends with the stop event. -/
theorem endsWithStop_cons_cons (a b : PEv) (l : List PEv) :
    endsWithStop (a :: b :: l) = endsWithStop (b :: l) := by
  cases a <;> rfl

/-- A pump trace is never empty: the `finally` block always runs. -/
theorem tcpLoopGo_ne_nil (steps : List SockStep) : tcpLoopGo steps ≠ [] := by
  cases steps with
  | nil => simp [tcpLoopGo]
  | cons s rest =>
    cases s with
    | fail => simp [tcpLoopGo]
    | dat b => by_cases hb : b.take RECV_CAP = [] <;> simp [tcpLoopGo, hb]

/-- Claim C6: in the local-to-remote pump loop, every chunk read from the
TCP socket is bounded by the fixed recv cap of 4096 bytes; each nonempty
chunk is written to the channel buffer and flushed before the next socket
read; and an empty read or a read error ends the loop — with `stop()`
always triggered at the end of the trace. -/
theorem claim_C6 (steps : List SockStep) :
    (tcpLoopGo steps).all capOk = true ∧
    wfTrace (tcpLoopGo steps) = true ∧
    endsWithStop (tcpLoopGo steps) = true := by
  induction steps with
  | nil => exact ⟨rfl, rfl, rfl⟩
  | cons s rest ih =>
    cases s with
    | fail => exact ⟨rfl, rfl, rfl⟩
    | dat b =>
      obtain ⟨ih1, ih2, ih3⟩ := ih
      by_cases hb : b.take RECV_CAP = []
      · refine ⟨?_, ?_, ?_⟩ <;> simp [tcpLoopGo, hb, capOk, wfTrace, endsWithStop]
      · refine ⟨?_, ?_, ?_⟩
        · simp [tcpLoopGo, hb, capOk, ih1, List.length_take]
        · simp [tcpLoopGo, hb, wfTrace, ih2]
        · obtain ⟨x, t, hxt⟩ := List.exists_cons_of_ne_nil (tcpLoopGo_ne_nil rest)
          simp only [tcpLoopGo]
          rw [if_neg hb, endsWithStop_cons_cons, endsWithStop_cons_cons, hxt,
            endsWithStop_cons_cons, ← hxt]
          exact ih3

/-- All the blocking I/O of a block of I/O events executes under the lock
when the lock is held entering the block. -/
theorem iosUnderLock_map_ioEv (xs : List BlockOp) (rest : List RegEv) :
    iosUnderLock true (xs.map RegEv.ioEv ++ rest) = xs ++ iosUnderLock true rest := by
  induction xs with
  | nil => rfl
  | cons op xs ih => simp [iosUnderLock, ih]

/-- In the shutdown path, every blocking teardown operation of every stopped
connection executes while the registry lock is held. -/
theorem blockingUnderLock_shutdown (conns : List ConnDesc) :
    blockingUnderLock (clientShutdownTrace conns) = (conns.map stopIOs).flatten := by
  unfold blockingUnderLock clientShutdownTrace
  simp only [iosUnderLock]
  induction conns with
  | nil => rfl
  | cons c cs ih =>
    simp only [List.map_cons, List.flatten_cons, List.append_assoc, stopEvents]
    rw [iosUnderLock_map_ioEv, ih]

/-- In the egress link-closed handler, the matched connection's blocking
teardown operations execute while the registry lock is held. -/
theorem blockingUnderLock_linkClosed (c : ConnDesc) :
    blockingUnderLock (serverLinkClosedTrace [(true, c)]) = stopIOs c := by
  unfold blockingUnderLock serverLinkClosedTrace serverScan
  simp only [if_true, iosUnderLock, stopEvents, List.append_assoc]
  rw [iosUnderLock_map_ioEv]
  simp [iosUnderLock]

/-- Counterexample to claim C8 as stated: shutting down a bridge with one
running, established session executes all three blocking teardown operations
(socket close, buffer close, link teardown) while the registry lock is held,
and the egress link-closed handler likewise performs blocking teardown I/O
under the lock. -/
theorem claim_C8_counterexample :
    blockingUnderLock (clientShutdownTrace [runningDesc]) =
      [BlockOp.closeSock, BlockOp.closeBuf, BlockOp.teardownLink] ∧
    blockingUnderLock (serverLinkClosedTrace [(true, runningDesc)]) ≠ [] := by
  constructor
  · rfl
  · decide

/-- Claim C8 (amended): the registry lock is scoped to pure list mutation in
the ingress registration and timeout-removal paths (no blocking I/O runs
under the lock there), but both shutdown paths and the egress link-closed
handler invoke `stop()` while holding the lock, so exactly the stopped
connections' teardown I/O (socket close, buffer close, link-teardown
request) executes with the registry lock held. -/
theorem claim_C8_amended :
    (∀ conns : List ConnDesc,
      blockingUnderLock (clientShutdownTrace conns) = (conns.map stopIOs).flatten) ∧
    blockingUnderLock clientRegisterTrace = [] ∧
    blockingUnderLock clientTimeoutRemoveTrace = [] ∧
    (∀ c : ConnDesc,
      blockingUnderLock (serverLinkClosedTrace [(true, c)]) = stopIOs c) :=
  ⟨blockingUnderLock_shutdown, rfl, rfl, blockingUnderLock_linkClosed⟩

end RnsIrcBridge
